import Mathlib

/-
Verification of the regtest RPC orchestration pipeline (src/rust/src/main.rs).

The embedding models the daemon as an oracle assigning a response to every
RPC call site of main, threads the wallet-service state through the
provisioning calls, and renders the pipeline as an Except-valued function.
Amounts are rationals; the Rust fixed-point formatting is mirrored on ℚ.
-/

/-! ## String utilities: substring test used by create_or_load_wallet -/

/-- Whether the character list pat is an initial segment of s. -/
def charsStartWith : List Char → List Char → Bool
  | _, [] => true
  | [], _ :: _ => false
  | c :: cs, p :: ps => c == p && charsStartWith cs ps

/-- Whether pat occurs as a contiguous sublist of s. -/
def charsHaveSub : List Char → List Char → Bool
  | [], pat => pat.isEmpty
  | c :: cs, pat => charsStartWith (c :: cs) pat || charsHaveSub cs pat

/-- Rust str contains: pat occurs as a substring of s. -/
def strContains (s pat : String) : Bool :=
  charsHaveSub s.data pat.data

/-! ## Fixed-point formatting, mirroring the Rust format string with eight
decimal places applied to output values and the fee. -/

/-- Left-pad a digit string with zeros to width eight. -/
def padTo8 (s : String) : String :=
  String.mk (List.replicate (8 - s.length) '0') ++ s

/-- Render a rational with exactly eight digits after the decimal point,
rounding half up, as the Rust formatter does on the satoshi-exact values
that occur in this program. -/
def formatFix8 (q : ℚ) : String :=
  let sign := if q < 0 then "-" else ""
  let t := (⌊|q| * 100000000 + 1/2⌋).toNat
  sign ++ toString (t / 100000000) ++ "." ++ padTo8 (toString (t % 100000000))

/-! ## Wallet service model

State of the daemon wallet subsystem: which wallets are loaded, which exist
on disk, and which failure modes each RPC exhibits.  The three RPCs used by
create_or_load_wallet are listwallets, createwallet and loadwallet. -/

structure WalletSvc where
  loaded : List String
  existing : List String
  listFails : Bool
  loadFails : List String
  createOtherFails : List String
  deriving DecidableEq, Repr

/-- The listwallets RPC: the set of loaded wallet names, or a transport
error. -/
def listwallets (s : WalletSvc) : Except String (List String) :=
  if s.listFails then Except.error "connection refused" else Except.ok s.loaded

/-- The createwallet RPC: fails on wallets that already exist on disk and on
wallets in the createOtherFails failure set; otherwise creates and loads. -/
def createwallet (s : WalletSvc) (name : String) : Except String WalletSvc :=
  if name ∈ s.createOtherFails then Except.error "unexpected RPC error"
  else if name ∈ s.existing then Except.error "Database already exists"
  else Except.ok { s with existing := name :: s.existing, loaded := name :: s.loaded }

/-- The loadwallet RPC: fails on wallets in the loadFails failure set, on
wallets already loaded, and on wallets that do not exist on disk. -/
def loadwallet (s : WalletSvc) (name : String) : Except String WalletSvc :=
  if name ∈ s.loadFails then Except.error "load failed"
  else if name ∈ s.loaded then Except.error "already loaded"
  else if name ∈ s.existing then Except.ok { s with loaded := name :: s.loaded }
  else Except.error "not found"

/-- Check if a wallet is already loaded (main.rs lines 39 to 44): a failing
listwallets call is swallowed and reported as not loaded. -/
def is_wallet_loaded (s : WalletSvc) (name : String) : Bool :=
  match listwallets s with
  | Except.ok wallets => wallets.contains name
  | Except.error _ => false

/-- Create or load a wallet with the given name (main.rs lines 47 to 83).
Returns true iff this call created the wallet, paired with the resulting
wallet-service state. -/
def create_or_load_wallet (s : WalletSvc) (name : String) :
    Except String (Bool × WalletSvc) :=
  if is_wallet_loaded s name then Except.ok (false, s)
  else
    match createwallet s name with
    | Except.ok s' => Except.ok (true, s')
    | Except.error create_error_msg =>
      if strContains create_error_msg "Database already exists"
          || strContains create_error_msg "already exists" then
        match loadwallet s name with
        | Except.ok s' => Except.ok (false, s')
        | Except.error _ => Except.ok (false, s)
      else Except.error create_error_msg

/-! ## Output classifier (main.rs lines 260 to 279)

A decoded transaction output: the value field (absent models a non-numeric
JSON value, defaulted to zero as by unwrap_or) and the optional address. -/

structure Vout where
  value : Option ℚ
  address : Option String
  deriving DecidableEq, Repr

/-- One iteration of the classification loop over the decoded outputs.  The
accumulator is (trader output address, miner change address, miner change
amount).  An output within 1e-4 of 20 sets the recipient address; any other
output with positive value and a decodable address sets the change address
and formatted change amount. -/
def classifyStep (acc : String × String × String) (v : Vout) :
    String × String × String :=
  let value := v.value.getD 0
  match v.address with
  | some address =>
    if |value - 20| < 1/10000 then
      (address, acc.2.1, acc.2.2)
    else if value > 0 ∧ |value - 20| ≥ 1/10000 then
      (acc.1, address, formatFix8 value)
    else acc
  | none => acc

/-- The classification loop: defaults are the trader address generated by
the run, the miner address, and the string for a zero change amount. -/
def classifyOutputs (traderAddr minerAddr : String) (vouts : List Vout) :
    String × String × String :=
  vouts.foldl classifyStep (traderAddr, minerAddr, "0.0")

/-! ## Maturation loop (main.rs lines 125 to 147)

Fuel-indexed rendering of the unbounded while loop: each iteration issues
one generatetoaddress call for a single block and then re-reads the miner
balance; the loop exits as soon as the balance is positive.  Exhausted fuel
renders the still-running loop as a distinguished error. -/

def matureLoopE (gen : ℕ → Except String (List String))
    (bal : ℕ → Except String ℚ) : ℕ → ℕ → Except String (ℕ × ℚ)
  | 0, _ => Except.error "loop still running"
  | fuel + 1, mined =>
    match gen (mined + 1) with
    | Except.error e => Except.error e
    | Except.ok _ =>
      match bal (mined + 1) with
      | Except.error e => Except.error e
      | Except.ok b =>
        if b ≤ 0 then matureLoopE gen bal fuel (mined + 1)
        else Except.ok (mined + 1, b)

/-! ## The daemon oracle and the main pipeline -/

/-- The mempool entry captured before confirmation (main.rs lines 200 to
205): virtual size, base fee, time and height. -/
structure MempoolEntry where
  vsize : ℕ
  feeBase : ℚ
  time : ℕ
  height : ℕ
  deriving DecidableEq, Repr

/-- The daemon oracle: one field per RPC call site of main, in call order,
plus the two parse outcomes that main unwraps, the write outcomes of the
report stage, and the prior content of the report file. -/
structure Daemon where
  connectNode : Except String Unit
  blockchainInfo0 : Except String ℕ
  wallets : WalletSvc
  connectMiner : Except String Unit
  connectTrader : Except String Unit
  minerNewAddress : Except String String
  loopGenerate : ℕ → Except String (List String)
  loopBalance : ℕ → Except String ℚ
  traderNewAddress : Except String String
  traderBalance1 : Except String ℚ
  minerBalanceBeforeSend : Except String ℚ
  sendResult : Except String String
  txidParseOk : Bool
  mempool : Except String MempoolEntry
  confirmGenerate : Except String (List String)
  blockHashParseOk : Bool
  blockchainInfo2 : Except String ℕ
  rawTx1 : Except String Unit
  minerFinalBalance : Except String ℚ
  traderFinalBalance : Except String ℚ
  rawTx2 : Except String Unit
  decodedVout : Except String (Option (List Vout))
  fileCreateOk : Bool
  writeOk : ℕ → Bool
  priorOut : String

/-- The pipeline of main.rs up to and excluding the report write: every RPC
call in source order, the maturation loop, the two unwrap sites rendered as
errors, and the classification of the decoded outputs.  On success it
returns the ten report lines in the order they are written. -/
def runMainLines (d : Daemon) (fuel : ℕ) : Except String (List String) := do
  let _ ← d.connectNode
  let _ ← d.blockchainInfo0
  let (_, w1) ← create_or_load_wallet d.wallets "Miner"
  let (_, _) ← create_or_load_wallet w1 "Trader"
  let _ ← d.connectMiner
  let _ ← d.connectTrader
  let minerAddr ← d.minerNewAddress
  let (_, _) ← matureLoopE d.loopGenerate d.loopBalance fuel 0
  let traderAddr ← d.traderNewAddress
  let _ ← d.traderBalance1
  let _ ← d.minerBalanceBeforeSend
  let txid ← d.sendResult
  let _ ← (if d.txidParseOk then Except.ok () else Except.error "panic: bad txid")
  let me ← d.mempool
  let hashes ← d.confirmGenerate
  let confirmationHash ← (match hashes with
    | [] => Except.error "panic: index out of bounds"
    | h :: _ => Except.ok h)
  let _ ← (if d.blockHashParseOk then Except.ok ()
           else Except.error "panic: bad block hash")
  let height ← d.blockchainInfo2
  let _ ← d.rawTx1
  let _ ← d.minerFinalBalance
  let _ ← d.traderFinalBalance
  let _ ← d.rawTx2
  let vj ← d.decodedVout
  let vouts ← (match vj with
    | none => Except.error "panic: vout is not an array"
    | some vs => Except.ok vs)
  let c := classifyOutputs traderAddr minerAddr vouts
  pure [txid, minerAddr, "50.0", c.1, "20.0", c.2.1, c.2.2,
        formatFix8 me.feeBase, toString height, confirmationHash]

/-- The report write stage: each writeln appends its line and a newline to
the file content; the first failing write aborts with the content written
so far left in place. -/
def writeLinesAux (okf : ℕ → Bool) : List String → ℕ → String →
    Except String Unit × String
  | [], _, acc => (Except.ok (), acc)
  | l :: ls, k, acc =>
    if okf k then writeLinesAux okf ls (k + 1) (acc ++ l ++ "\n")
    else (Except.error "write failed", acc)

/-- The newline-terminated concatenation of the report lines. -/
def reportContent : List String → String
  | [] => ""
  | l :: ls => l ++ "\n" ++ reportContent ls

/-- The whole of main: run the pipeline; on success create the report file,
truncating whatever was there, and write the ten lines.  The second
component is the final content of the report file. -/
def runMain (d : Daemon) (fuel : ℕ) : Except String Unit × String :=
  match runMainLines d fuel with
  | Except.error e => (Except.error e, d.priorOut)
  | Except.ok lines =>
    if d.fileCreateOk then writeLinesAux d.writeOk lines 0 ""
    else (Except.error "could not create file", d.priorOut)

/-! ## Concrete daemon states used by the witnesses and counterexamples -/

def wsBase : WalletSvc := ⟨[], [], false, [], []⟩

def wsMiner : WalletSvc := ⟨["Miner"], ["Miner"], false, [], []⟩

def wsBoth : WalletSvc := ⟨["Trader", "Miner"], ["Trader", "Miner"], false, [], []⟩

/-- The base concrete daemon: every call succeeds, the balance turns
positive after the first mined block, and the decoded transaction has the
expected two outputs. -/
def dBase : Daemon where
  connectNode := Except.ok ()
  blockchainInfo0 := Except.ok 0
  wallets := wsBase
  connectMiner := Except.ok ()
  connectTrader := Except.ok ()
  minerNewAddress := Except.ok "MINERADDR"
  loopGenerate := fun _ => Except.ok ["H1"]
  loopBalance := fun _ => Except.ok (50 : ℚ)
  traderNewAddress := Except.ok "TRADERADDR"
  traderBalance1 := Except.ok 0
  minerBalanceBeforeSend := Except.ok 50
  sendResult := Except.ok "TXID0"
  txidParseOk := true
  mempool := Except.ok ⟨154, 1/100000, 1700000000, 101⟩
  confirmGenerate := Except.ok ["BLOCKHASH0"]
  blockHashParseOk := true
  blockchainInfo2 := Except.ok 102
  rawTx1 := Except.ok ()
  minerFinalBalance := Except.ok 55
  traderFinalBalance := Except.ok 20
  rawTx2 := Except.ok ()
  decodedVout := Except.ok
    (some [⟨some 20, some "TRADEROUT"⟩, ⟨some (2999999/100000), some "CHANGEOUT"⟩])
  fileCreateOk := true
  writeOk := fun _ => true
  priorOut := "OLD"

def ws9 : WalletSvc := ⟨[], [], true, [], []⟩

def d9c : Daemon := { dBase with wallets := ws9 }

/-- The base daemon with a decoded output list holding no output within
tolerance of the transfer amount. -/
def d2c : Daemon :=
  { dBase with decodedVout := Except.ok (some [⟨some 5, some "X"⟩]) }

/-! ## General helpers -/

instance exceptDecEq {ε α : Type} [DecidableEq ε] [DecidableEq α] :
    DecidableEq (Except ε α)
  | Except.error e, Except.error f =>
    if h : e = f then Decidable.isTrue (by rw [h])
    else Decidable.isFalse (by simp [h])
  | Except.error _, Except.ok _ => Decidable.isFalse (by simp)
  | Except.ok _, Except.error _ => Decidable.isFalse (by simp)
  | Except.ok a, Except.ok b =>
    if h : a = b then Decidable.isTrue (by rw [h])
    else Decidable.isFalse (by simp [h])

theorem ebind_ok {α β : Type} (a : α) (f : α → Except String β) :
    (Except.ok a >>= f) = f a := rfl

theorem ebind_err {α β : Type} (e : String) (f : α → Except String β) :
    ((Except.error e : Except String α) >>= f) = Except.error e := rfl

theorem epure_eq_ok {α : Type} (a : α) : (pure a : Except String α) = Except.ok a := rfl

/-- Inversion for a successful bind in the Except monad. -/
theorem ebind_ok_elim {α β : Type} {x : Except String α} {f : α → Except String β}
    {b : β} (h : (x >>= f) = Except.ok b) : ∃ a, x = Except.ok a ∧ f a = Except.ok b := by
  cases x with
  | error e => exact absurd h (by simp [ebind_err])
  | ok a => exact ⟨a, rfl, by simpa [ebind_ok] using h⟩

/-- Evaluation rule for formatFix8 on a nonnegative rational whose rounded
scaled value is t. -/
theorem formatFix8_of (q : ℚ) (t : ℕ) (h0 : ¬ q < 0)
    (h1 : (t : ℚ) ≤ q * 100000000 + 1/2) (h2 : q * 100000000 + 1/2 < t + 1) :
    formatFix8 q =
      toString (t / 100000000) ++ "." ++ padTo8 (toString (t % 100000000)) := by
  have habs : |q| = q := abs_of_nonneg (not_lt.mp h0)
  have hfl : ⌊|q| * 100000000 + 1/2⌋ = (t : ℤ) := by
    rw [habs, Int.floor_eq_iff]
    exact ⟨by exact_mod_cast h1, by exact_mod_cast h2⟩
  unfold formatFix8
  rw [if_neg h0, hfl, Int.toNat_natCast]
  show "" ++ toString (t / 100000000) ++ "." ++ padTo8 (toString (t % 100000000)) =
    toString (t / 100000000) ++ "." ++ padTo8 (toString (t % 100000000))
  simp

/-! ## Wallet provisioning lemmas -/

theorem createwallet_ok_elim {s : WalletSvc} {name : String} {s' : WalletSvc}
    (h : createwallet s name = Except.ok s') :
    name ∉ s.createOtherFails ∧ name ∉ s.existing ∧
      s' = { s with existing := name :: s.existing, loaded := name :: s.loaded } := by
  unfold createwallet at h
  by_cases h1 : name ∈ s.createOtherFails
  · rw [if_pos h1] at h; exact absurd h (by simp)
  · rw [if_neg h1] at h
    by_cases h2 : name ∈ s.existing
    · rw [if_pos h2] at h; exact absurd h (by simp)
    · rw [if_neg h2] at h
      exact ⟨h1, h2, (Except.ok.inj h).symm⟩

theorem createwallet_error_elim {s : WalletSvc} {name : String} {msg : String}
    (h : createwallet s name = Except.error msg) :
    (name ∈ s.createOtherFails ∧ msg = "unexpected RPC error") ∨
      (name ∉ s.createOtherFails ∧ name ∈ s.existing ∧
        msg = "Database already exists") := by
  unfold createwallet at h
  by_cases h1 : name ∈ s.createOtherFails
  · rw [if_pos h1] at h
    exact Or.inl ⟨h1, (Except.error.inj h).symm⟩
  · rw [if_neg h1] at h
    by_cases h2 : name ∈ s.existing
    · rw [if_pos h2] at h
      exact Or.inr ⟨h1, h2, (Except.error.inj h).symm⟩
    · rw [if_neg h2] at h; exact absurd h (by simp)

theorem loadwallet_ok_elim {s : WalletSvc} {name : String} {s' : WalletSvc}
    (h : loadwallet s name = Except.ok s') :
    name ∉ s.loadFails ∧ name ∉ s.loaded ∧ name ∈ s.existing ∧
      s' = { s with loaded := name :: s.loaded } := by
  unfold loadwallet at h
  by_cases h1 : name ∈ s.loadFails
  · rw [if_pos h1] at h; exact absurd h (by simp)
  · rw [if_neg h1] at h
    by_cases h2 : name ∈ s.loaded
    · rw [if_pos h2] at h; exact absurd h (by simp)
    · rw [if_neg h2] at h
      by_cases h3 : name ∈ s.existing
      · rw [if_pos h3] at h
        exact ⟨h1, h2, h3, (Except.ok.inj h).symm⟩
      · rw [if_neg h3] at h; exact absurd h (by simp)

theorem strContains_db_pattern :
    (strContains "Database already exists" "Database already exists"
      || strContains "Database already exists" "already exists") = true := by decide

theorem strContains_other_pattern :
    (strContains "unexpected RPC error" "Database already exists"
      || strContains "unexpected RPC error" "already exists") = false := by decide

/-- Loading a wallet that is marked loaded always errors. -/
theorem loadwallet_of_loaded {s : WalletSvc} {name : String}
    (h : name ∈ s.loaded) : ∃ e, loadwallet s name = Except.error e := by
  unfold loadwallet
  by_cases h1 : name ∈ s.loadFails
  · exact ⟨_, if_pos h1⟩
  · rw [if_neg h1]
    exact ⟨_, if_pos h⟩

/-- Creating a wallet that exists on disk and is not in the other-failures
set errors with the database-exists message. -/
theorem createwallet_of_existing {s : WalletSvc} {name : String}
    (h1 : name ∉ s.createOtherFails) (h2 : name ∈ s.existing) :
    createwallet s name = Except.error "Database already exists" := by
  unfold createwallet
  rw [if_neg h1, if_pos h2]

/-- Branch (a): wallet reported loaded, no-op. -/
theorem cl_of_loaded {s : WalletSvc} {name : String}
    (hl : is_wallet_loaded s name = true) :
    create_or_load_wallet s name = Except.ok (false, s) := by
  simp [create_or_load_wallet, hl]

/-- Branch (b): wallet not reported loaded and creation succeeds. -/
theorem cl_of_create_ok {s : WalletSvc} {name : String} {s1 : WalletSvc}
    (hl : is_wallet_loaded s name = false)
    (hc : createwallet s name = Except.ok s1) :
    create_or_load_wallet s name = Except.ok (true, s1) := by
  simp [create_or_load_wallet, hl, hc]

/-- Branch (c): creation fails with an exists-class message and the fallback
load succeeds. -/
theorem cl_of_exists_load_ok {s : WalletSvc} {name msg : String} {s2 : WalletSvc}
    (hl : is_wallet_loaded s name = false)
    (hc : createwallet s name = Except.error msg)
    (hcont : (strContains msg "Database already exists"
        || strContains msg "already exists") = true)
    (hload : loadwallet s name = Except.ok s2) :
    create_or_load_wallet s name = Except.ok (false, s2) := by
  simp [create_or_load_wallet, hl, hc, hcont, hload]

/-- Branch (d): creation fails with an exists-class message and the fallback
load also fails; the failure is only a warning and the state is unchanged. -/
theorem cl_of_exists_load_err {s : WalletSvc} {name msg e : String}
    (hl : is_wallet_loaded s name = false)
    (hc : createwallet s name = Except.error msg)
    (hcont : (strContains msg "Database already exists"
        || strContains msg "already exists") = true)
    (hload : loadwallet s name = Except.error e) :
    create_or_load_wallet s name = Except.ok (false, s) := by
  simp [create_or_load_wallet, hl, hc, hcont, hload]

/-- Branch (e): creation fails with any other message, propagated fatally. -/
theorem cl_of_other_error {s : WalletSvc} {name msg : String}
    (hl : is_wallet_loaded s name = false)
    (hc : createwallet s name = Except.error msg)
    (hcont : (strContains msg "Database already exists"
        || strContains msg "already exists") = false) :
    create_or_load_wallet s name = Except.error msg := by
  simp [create_or_load_wallet, hl, hc, hcont]

/-- Claim C4: for every wallet name, ensure_wallet is idempotent: if a first
call succeeds, a second call against the resulting daemon state never fails
and always reports the wallet as not newly created. -/
theorem ensure_wallet_idempotent (s : WalletSvc) (name : String) (b : Bool)
    (s' : WalletSvc) (h : create_or_load_wallet s name = Except.ok (b, s')) :
    create_or_load_wallet s' name = Except.ok (false, s') := by
  by_cases hl : is_wallet_loaded s name = true
  · rw [cl_of_loaded hl] at h
    simp only [Except.ok.injEq, Prod.mk.injEq] at h
    obtain ⟨hb, hs⟩ := h
    subst hs
    exact cl_of_loaded hl
  · have hl' : is_wallet_loaded s name = false := by simpa using hl
    cases hc : createwallet s name with
    | ok s1 =>
      rw [cl_of_create_ok hl' hc] at h
      simp only [Except.ok.injEq, Prod.mk.injEq] at h
      obtain ⟨hb, hs⟩ := h
      subst hs
      obtain ⟨hof, hex, hs1⟩ := createwallet_ok_elim hc
      by_cases hl1 : is_wallet_loaded s1 name = true
      · exact cl_of_loaded hl1
      · have hl1' : is_wallet_loaded s1 name = false := by simpa using hl1
        have hmem : name ∈ s1.loaded := by rw [hs1]; exact List.mem_cons_self _ _
        have hof1 : name ∉ s1.createOtherFails := by rw [hs1]; simpa using hof
        have hex1 : name ∈ s1.existing := by rw [hs1]; exact List.mem_cons_self _ _
        obtain ⟨e, hload⟩ := loadwallet_of_loaded hmem
        exact cl_of_exists_load_err hl1'
          (createwallet_of_existing hof1 hex1) strContains_db_pattern hload
    | error msg =>
      by_cases hcont : (strContains msg "Database already exists"
          || strContains msg "already exists") = true
      · cases hload : loadwallet s name with
        | ok s2 =>
          rw [cl_of_exists_load_ok hl' hc hcont hload] at h
          simp only [Except.ok.injEq, Prod.mk.injEq] at h
          obtain ⟨hb, hs⟩ := h
          subst hs
          obtain ⟨hlf, hld, hexist, hs2⟩ := loadwallet_ok_elim hload
          rcases createwallet_error_elim hc with ⟨hof, rfl⟩ | ⟨hof, hex', rfl⟩
          · rw [strContains_other_pattern] at hcont
            exact absurd hcont (by simp)
          · by_cases hl2 : is_wallet_loaded s2 name = true
            · exact cl_of_loaded hl2
            · have hl2' : is_wallet_loaded s2 name = false := by simpa using hl2
              have hmem : name ∈ s2.loaded := by
                rw [hs2]; exact List.mem_cons_self _ _
              have hof2 : name ∉ s2.createOtherFails := by rw [hs2]; simpa using hof
              have hex2 : name ∈ s2.existing := by rw [hs2]; simpa using hex'
              obtain ⟨e, hload2⟩ := loadwallet_of_loaded hmem
              exact cl_of_exists_load_err hl2'
                (createwallet_of_existing hof2 hex2) strContains_db_pattern hload2
        | error e =>
          rw [cl_of_exists_load_err hl' hc hcont hload] at h
          simp only [Except.ok.injEq, Prod.mk.injEq] at h
          obtain ⟨hb, hs⟩ := h
          subst hs
          exact cl_of_exists_load_err hl' hc hcont hload
      · have hcont' : (strContains msg "Database already exists"
            || strContains msg "already exists") = false := by simpa using hcont
        rw [cl_of_other_error hl' hc hcont'] at h
        exact absurd h (by simp)

/-- Witness for C4 at a concrete fresh wallet service state. -/
theorem ensure_wallet_idempotent_witness :
    create_or_load_wallet ⟨[], [], false, [], []⟩ "Miner" =
      Except.ok (true, ⟨["Miner"], ["Miner"], false, [], []⟩) ∧
    create_or_load_wallet ⟨["Miner"], ["Miner"], false, [], []⟩ "Miner" =
      Except.ok (false, ⟨["Miner"], ["Miner"], false, [], []⟩) :=
  ⟨by decide, ensure_wallet_idempotent ⟨[], [], false, [], []⟩ "Miner" true
    ⟨["Miner"], ["Miner"], false, [], []⟩ (by decide)⟩

/-- Claim C5: the three-way branch contract of ensure_wallet: a loaded
wallet yields false with no creation; a successful creation yields true; an
exists-class creation failure falls back to load, a load failure is only a
warning and the call still returns false with the state unchanged; any
other creation failure is propagated as an error. -/
theorem ensure_wallet_contract (s : WalletSvc) (name : String) :
    (is_wallet_loaded s name = true →
      create_or_load_wallet s name = Except.ok (false, s))
    ∧ ((∃ s', create_or_load_wallet s name = Except.ok (true, s')) ↔
        (is_wallet_loaded s name = false ∧
          ∃ s', createwallet s name = Except.ok s'))
    ∧ (∀ msg s', is_wallet_loaded s name = false →
        createwallet s name = Except.error msg →
        (strContains msg "Database already exists"
          || strContains msg "already exists") = true →
        loadwallet s name = Except.ok s' →
        create_or_load_wallet s name = Except.ok (false, s'))
    ∧ (∀ msg e, is_wallet_loaded s name = false →
        createwallet s name = Except.error msg →
        (strContains msg "Database already exists"
          || strContains msg "already exists") = true →
        loadwallet s name = Except.error e →
        create_or_load_wallet s name = Except.ok (false, s))
    ∧ (∀ msg, is_wallet_loaded s name = false →
        createwallet s name = Except.error msg →
        (strContains msg "Database already exists"
          || strContains msg "already exists") = false →
        create_or_load_wallet s name = Except.error msg) := by
  refine ⟨fun hl => cl_of_loaded hl, ⟨?_, ?_⟩,
    fun msg s' hl hc hcont hload => cl_of_exists_load_ok hl hc hcont hload,
    fun msg e hl hc hcont hload => cl_of_exists_load_err hl hc hcont hload,
    fun msg hl hc hcont => cl_of_other_error hl hc hcont⟩
  · rintro ⟨s', h⟩
    by_cases hl : is_wallet_loaded s name = true
    · rw [cl_of_loaded hl] at h
      simp at h
    · have hl' : is_wallet_loaded s name = false := by simpa using hl
      refine ⟨hl', ?_⟩
      cases hc : createwallet s name with
      | ok s1 => exact ⟨s1, rfl⟩
      | error msg =>
        by_cases hcont : (strContains msg "Database already exists"
            || strContains msg "already exists") = true
        · cases hload : loadwallet s name with
          | ok s2 =>
            rw [cl_of_exists_load_ok hl' hc hcont hload] at h
            simp at h
          | error e =>
            rw [cl_of_exists_load_err hl' hc hcont hload] at h
            simp at h
        · have hcont' : (strContains msg "Database already exists"
              || strContains msg "already exists") = false := by simpa using hcont
          rw [cl_of_other_error hl' hc hcont'] at h
          simp at h
  · rintro ⟨hl, s1, hc⟩
    exact ⟨s1, cl_of_create_ok hl hc⟩

/-- Witness for C5: a wallet existing on disk whose load fails exercises the
warning branch, which still returns false with the state unchanged. -/
theorem ensure_wallet_contract_witness :
    create_or_load_wallet ⟨[], ["Miner"], false, ["Miner"], []⟩ "Miner" =
      Except.ok (false, ⟨[], ["Miner"], false, ["Miner"], []⟩) :=
  (ensure_wallet_contract ⟨[], ["Miner"], false, ["Miner"], []⟩ "Miner").2.2.2.1
    "Database already exists" "load failed" (by decide) (by decide)
    (by decide) (by decide)

/-! ## Maturation loop lemmas -/

/-- If the balance first turns positive after n generated blocks, the loop
returns n and that balance for every sufficient fuel. -/
theorem matureLoopE_reaches {gen : ℕ → Except String (List String)}
    {bal : ℕ → Except String ℚ} {G : ℕ → List String} {B : ℕ → ℚ}
    (hgen : ∀ k, gen k = Except.ok (G k)) (hbal : ∀ k, bal k = Except.ok (B k))
    {n : ℕ} (hn1 : 1 ≤ n) (hpos : 0 < B n)
    (hmin : ∀ k, 1 ≤ k → k < n → B k ≤ 0) :
    ∀ fuel m, n ≤ m + fuel → m < n →
      matureLoopE gen bal fuel m = Except.ok (n, B n) := by
  intro fuel
  induction fuel with
  | zero => intro m hle hlt; omega
  | succ fuel ih =>
    intro m hle hlt
    unfold matureLoopE
    simp only [hgen, hbal]
    by_cases hmn : m + 1 = n
    · subst hmn
      rw [if_neg (not_le.mpr hpos)]
    · have hlt1 : m + 1 < n := by omega
      rw [if_pos (hmin (m + 1) (by omega) hlt1)]
      exact ih (m + 1) (by omega) hlt1

/-- Whenever the loop returns, the returned balance is the queried balance
after the returned number of mined blocks, and it is positive. -/
theorem matureLoopE_ok_pos {gen : ℕ → Except String (List String)}
    {bal : ℕ → Except String ℚ} {B : ℕ → ℚ}
    (hbal : ∀ k, bal k = Except.ok (B k)) :
    ∀ fuel m n b, matureLoopE gen bal fuel m = Except.ok (n, b) →
      b = B n ∧ 0 < b ∧ m < n := by
  intro fuel
  induction fuel with
  | zero => intro m n b h; exact absurd h (by simp [matureLoopE])
  | succ fuel ih =>
    intro m n b h
    unfold matureLoopE at h
    cases hg : gen (m + 1) with
    | error e =>
      simp only [hg] at h
      exact absurd h (by simp)
    | ok hs =>
      simp only [hg, hbal] at h
      by_cases hb : B (m + 1) ≤ 0
      · rw [if_pos hb] at h
        obtain ⟨h1, h2, h3⟩ := ih (m + 1) n b h
        exact ⟨h1, h2, by omega⟩
      · rw [if_neg hb] at h
        simp only [Except.ok.injEq, Prod.mk.injEq] at h
        obtain ⟨hn, hbb⟩ := h
        subst hn
        subst hbb
        exact ⟨rfl, not_le.mp hb, by omega⟩

/-- If the balance stays non-positive for the whole fuel allowance, the loop
is still running when the fuel runs out: no iteration cap exits it. -/
theorem matureLoopE_no_cap {gen : ℕ → Except String (List String)}
    {bal : ℕ → Except String ℚ} {G : ℕ → List String} {B : ℕ → ℚ}
    (hgen : ∀ k, gen k = Except.ok (G k)) (hbal : ∀ k, bal k = Except.ok (B k)) :
    ∀ fuel m, (∀ k, 1 ≤ k → k ≤ m + fuel → B k ≤ 0) →
      matureLoopE gen bal fuel m = Except.error "loop still running" := by
  intro fuel
  induction fuel with
  | zero => intro m hall; rfl
  | succ fuel ih =>
    intro m hall
    unfold matureLoopE
    simp only [hgen, hbal]
    rw [if_pos (hall (m + 1) (by omega) (by omega))]
    exact ih (m + 1) (fun k hk1 hk2 => hall k hk1 (by omega))

/-- Claim C3: the maturation loop mines one block per iteration and rereads
the balance; it enforces no iteration cap; for every daemon behaviour whose
balance eventually turns strictly positive it terminates, and whenever it
terminates the final balance is strictly positive and equal to the balance
queried after the blocks mined so far. -/
theorem maturation_loop_spec (gen : ℕ → Except String (List String))
    (bal : ℕ → Except String ℚ) (G : ℕ → List String) (B : ℕ → ℚ)
    (hgen : ∀ k, gen k = Except.ok (G k)) (hbal : ∀ k, bal k = Except.ok (B k)) :
    ((∃ N, 1 ≤ N ∧ 0 < B N) →
      ∃ n b, 0 < b ∧ b = B n ∧ 1 ≤ n ∧
        ∀ fuel, n ≤ fuel → matureLoopE gen bal fuel 0 = Except.ok (n, b))
    ∧ (∀ fuel n b, matureLoopE gen bal fuel 0 = Except.ok (n, b) →
        0 < b ∧ b = B n ∧ 1 ≤ n)
    ∧ (∀ fuel, (∀ k, 1 ≤ k → k ≤ fuel → B k ≤ 0) →
        matureLoopE gen bal fuel 0 = Except.error "loop still running") := by
  refine ⟨?_, ?_, ?_⟩
  · intro hex
    have hex' : ∃ N, 1 ≤ N ∧ 0 < B N := hex
    classical
    let P : ℕ → Prop := fun k => 1 ≤ k ∧ 0 < B k
    have hP : ∃ k, P k := hex'
    obtain ⟨N, hN⟩ := hP
    have hfind := Nat.find_spec (⟨N, hN⟩ : ∃ k, P k)
    refine ⟨Nat.find (⟨N, hN⟩ : ∃ k, P k), B (Nat.find (⟨N, hN⟩ : ∃ k, P k)),
      hfind.2, rfl, hfind.1, ?_⟩
    intro fuel hfuel
    refine matureLoopE_reaches hgen hbal hfind.1 hfind.2 ?_ fuel 0 (by omega)
      (by omega)
    intro k hk1 hklt
    by_contra hkpos
    exact Nat.find_min (⟨N, hN⟩ : ∃ k, P k) hklt ⟨hk1, not_le.mp hkpos⟩
  · intro fuel n b h
    obtain ⟨h1, h2, _⟩ := matureLoopE_ok_pos hbal fuel 0 n b h
    have h3 : 1 ≤ n := by
      obtain ⟨_, _, h3⟩ := matureLoopE_ok_pos hbal fuel 0 n b h
      omega
    exact ⟨h2, h1, h3⟩
  · intro fuel hall
    exact matureLoopE_no_cap hgen hbal fuel 0 (fun k hk1 hk2 => hall k hk1 (by omega))

/-! ## Pipeline inversion -/

/-- A successful pipeline run determines every RPC response along the way
and the ten report lines. -/
theorem runMainLines_ok_elim {d : Daemon} {fuel : ℕ} {L : List String}
    (h : runMainLines d fuel = Except.ok L) :
    ∃ (bi : ℕ) (mC : Bool) (w1 : WalletSvc) (tC : Bool) (w2 : WalletSvc)
      (minerAddr : String) (n : ℕ) (mb : ℚ) (traderAddr : String) (tb mbs : ℚ)
      (txid : String) (me : MempoolEntry) (ch : String) (chs : List String)
      (height : ℕ) (mfb tfb : ℚ) (vouts : List Vout),
      d.connectNode = Except.ok () ∧
      d.blockchainInfo0 = Except.ok bi ∧
      create_or_load_wallet d.wallets "Miner" = Except.ok (mC, w1) ∧
      create_or_load_wallet w1 "Trader" = Except.ok (tC, w2) ∧
      d.connectMiner = Except.ok () ∧
      d.connectTrader = Except.ok () ∧
      d.minerNewAddress = Except.ok minerAddr ∧
      matureLoopE d.loopGenerate d.loopBalance fuel 0 = Except.ok (n, mb) ∧
      d.traderNewAddress = Except.ok traderAddr ∧
      d.traderBalance1 = Except.ok tb ∧
      d.minerBalanceBeforeSend = Except.ok mbs ∧
      d.sendResult = Except.ok txid ∧
      d.txidParseOk = true ∧
      d.mempool = Except.ok me ∧
      d.confirmGenerate = Except.ok (ch :: chs) ∧
      d.blockHashParseOk = true ∧
      d.blockchainInfo2 = Except.ok height ∧
      d.rawTx1 = Except.ok () ∧
      d.minerFinalBalance = Except.ok mfb ∧
      d.traderFinalBalance = Except.ok tfb ∧
      d.rawTx2 = Except.ok () ∧
      d.decodedVout = Except.ok (some vouts) ∧
      L = [txid, minerAddr, "50.0",
           (classifyOutputs traderAddr minerAddr vouts).1, "20.0",
           (classifyOutputs traderAddr minerAddr vouts).2.1,
           (classifyOutputs traderAddr minerAddr vouts).2.2,
           formatFix8 me.feeBase, toString height, ch] := by
  unfold runMainLines at h
  obtain ⟨u0, h0, h⟩ := ebind_ok_elim h
  obtain ⟨bi, h1, h⟩ := ebind_ok_elim h
  obtain ⟨p1, h2, h⟩ := ebind_ok_elim h
  obtain ⟨mC, w1⟩ := p1
  obtain ⟨p2, h3, h⟩ := ebind_ok_elim h
  obtain ⟨tC, w2⟩ := p2
  obtain ⟨u1, h4, h⟩ := ebind_ok_elim h
  obtain ⟨u2, h5, h⟩ := ebind_ok_elim h
  obtain ⟨minerAddr, h6, h⟩ := ebind_ok_elim h
  obtain ⟨pl, h7, h⟩ := ebind_ok_elim h
  obtain ⟨n, mb⟩ := pl
  obtain ⟨traderAddr, h8, h⟩ := ebind_ok_elim h
  obtain ⟨tb, h9, h⟩ := ebind_ok_elim h
  obtain ⟨mbs, h10, h⟩ := ebind_ok_elim h
  obtain ⟨txid, h11, h⟩ := ebind_ok_elim h
  obtain ⟨u3, h12, h⟩ := ebind_ok_elim h
  obtain ⟨me, h13, h⟩ := ebind_ok_elim h
  obtain ⟨hashes, h14, h⟩ := ebind_ok_elim h
  obtain ⟨ch, h15, h⟩ := ebind_ok_elim h
  obtain ⟨u4, h16, h⟩ := ebind_ok_elim h
  obtain ⟨height, h17, h⟩ := ebind_ok_elim h
  obtain ⟨u5, h18, h⟩ := ebind_ok_elim h
  obtain ⟨mfb, h19, h⟩ := ebind_ok_elim h
  obtain ⟨tfb, h20, h⟩ := ebind_ok_elim h
  obtain ⟨u6, h21, h⟩ := ebind_ok_elim h
  obtain ⟨vj, h22, h⟩ := ebind_ok_elim h
  obtain ⟨vouts, h23, h⟩ := ebind_ok_elim h
  have htx : d.txidParseOk = true := by
    cases hb : d.txidParseOk
    · rw [hb] at h12; simp at h12
    · rfl
  have hbh : d.blockHashParseOk = true := by
    cases hb : d.blockHashParseOk
    · rw [hb] at h16; simp at h16
    · rfl
  cases hashes with
  | nil => simp at h15
  | cons hh ht =>
    simp only [Except.ok.injEq] at h15
    subst h15
    cases vj with
    | none => simp at h23
    | some vs =>
      simp only [Except.ok.injEq] at h23
      subst h23
      have hL : L = [txid, minerAddr, "50.0",
          (classifyOutputs traderAddr minerAddr vs).1, "20.0",
          (classifyOutputs traderAddr minerAddr vs).2.1,
          (classifyOutputs traderAddr minerAddr vs).2.2,
          formatFix8 me.feeBase, toString height, hh] := (Except.ok.inj h).symm
      cases u0
      cases u1
      cases u2
      cases u5
      cases u6
      exact ⟨bi, mC, w1, tC, w2, minerAddr, n, mb, traderAddr, tb, mbs, txid,
        me, hh, ht, height, mfb, tfb, vs, h0, h1, h2, h3, h4, h5, h6, h7,
        h8, h9, h10, h11, htx, h13, h14, hbh, h17, h18, h19, h20, h21, h22, hL⟩

/-! ## Report write stage lemmas -/

/-- A successful write pass appends exactly the newline-terminated lines, in
order, and requires every single writeln to have succeeded. -/
theorem writeLinesAux_ok_elim {okf : ℕ → Bool} :
    ∀ (ls : List String) (k : ℕ) (acc c : String),
      writeLinesAux okf ls k acc = (Except.ok (), c) →
      c = acc ++ reportContent ls ∧ ∀ i, i < ls.length → okf (k + i) = true := by
  intro ls
  induction ls with
  | nil =>
    intro k acc c h
    unfold writeLinesAux at h
    simp only [Prod.mk.injEq] at h
    refine ⟨?_, by simp⟩
    rw [← h.2]
    simp [reportContent, String.append_empty]
  | cons l ls ih =>
    intro k acc c h
    unfold writeLinesAux at h
    cases hk : okf k with
    | false => rw [hk] at h; simp at h
    | true =>
      rw [hk] at h
      simp only [if_true] at h
      obtain ⟨hc, hrest⟩ := ih (k + 1) (acc ++ l ++ "\n") c h
      constructor
      · rw [hc, reportContent, ← String.append_assoc, ← String.append_assoc]
      · intro i hi
        cases i with
        | zero => simpa using hk
        | succ j =>
          have := hrest j (by simpa using hi)
          simpa [Nat.add_comm, Nat.add_left_comm] using this

/-- runMainLines never reads the prior file content. -/
theorem runMainLines_priorOut (d : Daemon) (p : String) (fuel : ℕ) :
    runMainLines { d with priorOut := p } fuel = runMainLines d fuel := rfl

/-- Claim C7: a failure at any pipeline step before the report stage aborts
the run with that error and leaves the report file untouched, not even
partially written; on a fully successful run the file holds exactly the ten
produced lines, written once after confirmation. -/
theorem no_partial_report (d : Daemon) (fuel : ℕ) :
    (∀ e, runMainLines d fuel = Except.error e →
      runMain d fuel = (Except.error e, d.priorOut))
    ∧ (∀ c, runMain d fuel = (Except.ok (), c) →
        ∃ L, runMainLines d fuel = Except.ok L ∧ c = reportContent L) := by
  constructor
  · intro e he
    unfold runMain
    rw [he]
  · intro c h
    unfold runMain at h
    cases hr : runMainLines d fuel with
    | error e =>
      rw [hr] at h
      simp only [Prod.mk.injEq] at h
      exact absurd h.1 (by simp)
    | ok L =>
      rw [hr] at h
      cases hf : d.fileCreateOk with
      | false => rw [hf] at h; simp at h
      | true =>
        rw [hf] at h
        simp only [if_true] at h
        obtain ⟨hc, _⟩ := writeLinesAux_ok_elim L 0 "" c h
        exact ⟨L, rfl, by rw [hc, String.empty_append]⟩

/-- Witness for C7 at a concrete daemon whose send RPC fails. -/
theorem no_partial_report_witness :
    runMain
      { connectNode := Except.ok (), blockchainInfo0 := Except.ok 0,
        wallets := ⟨[], [], false, [], []⟩, connectMiner := Except.ok (),
        connectTrader := Except.ok (),
        minerNewAddress := Except.ok "MINERADDR",
        loopGenerate := fun _ => Except.ok ["H1"],
        loopBalance := fun _ => Except.error "refused",
        traderNewAddress := Except.ok "TRADERADDR",
        traderBalance1 := Except.ok 0, minerBalanceBeforeSend := Except.ok 50,
        sendResult := Except.ok "TXID0", txidParseOk := true,
        mempool := Except.ok ⟨154, 1/100000, 1700000000, 101⟩,
        confirmGenerate := Except.ok ["BLOCKHASH0"], blockHashParseOk := true,
        blockchainInfo2 := Except.ok 102, rawTx1 := Except.ok (),
        minerFinalBalance := Except.ok 55, traderFinalBalance := Except.ok 20,
        rawTx2 := Except.ok (),
        decodedVout := Except.ok (some []), fileCreateOk := true,
        writeOk := fun _ => true, priorOut := "OLD" } 1 =
      (Except.error "refused", "OLD") :=
  (no_partial_report _ 1).1 "refused" (by simp [runMainLines, matureLoopE,
    create_or_load_wallet, is_wallet_loaded, listwallets, createwallet,
    ebind_ok, ebind_err])

/-- Claim C8: the report stage serializes exactly ten fields, one per line
and newline-terminated, in the fixed order txid, sender address, sender
amount, recipient address, recipient amount, change address, change amount,
fee, confirmation height, confirmation block hash; it overwrites any prior
file content, and a failure to create or write the file is fatal. -/
theorem write_report_spec (d : Daemon) (fuel : ℕ) (L : List String)
    (hL : runMainLines d fuel = Except.ok L) :
    (∃ txid minerAddr recA chA chAmt feeS hS hashS,
      L = [txid, minerAddr, "50.0", recA, "20.0", chA, chAmt, feeS, hS, hashS])
    ∧ L.length = 10
    ∧ (∀ c, runMain d fuel = (Except.ok (), c) →
        c = reportContent L ∧ d.fileCreateOk = true ∧
          ∀ i, i < 10 → d.writeOk i = true)
    ∧ (∀ p, (runMain d fuel).1 = Except.ok () →
        runMain { d with priorOut := p } fuel = runMain d fuel)
    ∧ (d.fileCreateOk = false →
        runMain d fuel = (Except.error "could not create file", d.priorOut)) := by
  obtain ⟨bi, mC, w1, tC, w2, minerAddr, n, mb, traderAddr, tb, mbs, txid, me,
    ch, chs, height, mfb, tfb, vouts, hs⟩ := runMainLines_ok_elim hL
  have hLval := hs.2.2.2.2.2.2.2.2.2.2.2.2.2.2.2.2.2.2.2.2.2.2
  refine ⟨⟨txid, minerAddr, (classifyOutputs traderAddr minerAddr vouts).1,
      (classifyOutputs traderAddr minerAddr vouts).2.1,
      (classifyOutputs traderAddr minerAddr vouts).2.2,
      formatFix8 me.feeBase, toString height, ch, hLval⟩,
    by rw [hLval]; rfl, ?_, ?_, ?_⟩
  · intro c h
    unfold runMain at h
    rw [hL] at h
    cases hf : d.fileCreateOk with
    | false => rw [hf] at h; simp at h
    | true =>
      rw [hf] at h
      simp only [if_true] at h
      obtain ⟨hc, hall⟩ := writeLinesAux_ok_elim L 0 "" c h
      refine ⟨by rw [hc, String.empty_append], rfl, ?_⟩
      intro i hi
      have := hall i (by rw [hLval]; simpa using hi)
      simpa using this
  · intro p hok
    unfold runMain
    rw [show runMainLines { d with priorOut := p } fuel = runMainLines d fuel
      from rfl, hL]
    unfold runMain at hok
    rw [hL] at hok
    cases hf : d.fileCreateOk with
    | false => rw [hf] at hok; simp at hok
    | true => rfl
  · intro hf
    unfold runMain
    rw [hL, hf]
    rfl

/-! ## Concrete evaluations -/

theorem formatFix8_fee : formatFix8 (1/100000) = "0.00001000" := by
  rw [formatFix8_of (1/100000) 1000 (by norm_num) (by norm_num) (by norm_num)]
  decide

theorem formatFix8_change : formatFix8 (2999999/100000) = "29.99999000" := by
  rw [formatFix8_of (2999999/100000) 2999999000 (by norm_num) (by norm_num)
    (by norm_num)]
  decide

theorem formatFix8_five : formatFix8 5 = "5.00000000" := by
  rw [formatFix8_of 5 500000000 (by norm_num) (by norm_num) (by norm_num)]
  decide

theorem toString_102 : toString (102 : ℕ) = "102" := by decide

theorem clw_miner_eval :
    create_or_load_wallet wsBase "Miner" = Except.ok (true, wsMiner) := by decide

theorem clw_trader_eval :
    create_or_load_wallet wsMiner "Trader" = Except.ok (true, wsBoth) := by decide

theorem loop_eval :
    matureLoopE (fun _ => Except.ok ["H1"]) (fun _ => Except.ok (50 : ℚ)) 1 0 =
      Except.ok (1, 50) := by
  norm_num [matureLoopE]

theorem classify_base_eval :
    classifyOutputs "TRADERADDR" "MINERADDR"
      [⟨some 20, some "TRADEROUT"⟩, ⟨some (2999999/100000), some "CHANGEOUT"⟩] =
      ("TRADEROUT", "CHANGEOUT", "29.99999000") := by
  norm_num [classifyOutputs, classifyStep, formatFix8_change,
    abs_of_nonneg (show (0:ℚ) ≤ 999999/100000 by norm_num)]

theorem formatFix8_fee_inv : formatFix8 ((100000 : ℚ)⁻¹) = "0.00001000" := by
  rw [show ((100000 : ℚ)⁻¹) = 1/100000 by norm_num]
  exact formatFix8_fee

theorem runMainLines_dBase :
    runMainLines dBase 1 = Except.ok
      ["TXID0", "MINERADDR", "50.0", "TRADEROUT", "20.0", "CHANGEOUT",
       "29.99999000", "0.00001000", "102", "BLOCKHASH0"] := by
  simp [runMainLines, dBase, clw_miner_eval, clw_trader_eval, loop_eval,
    classify_base_eval, formatFix8_fee_inv, toString_102, ebind_ok, epure_eq_ok]

theorem runMain_dBase :
    runMain dBase 1 = (Except.ok (),
      "TXID0\nMINERADDR\n50.0\nTRADEROUT\n20.0\nCHANGEOUT\n29.99999000\n0.00001000\n102\nBLOCKHASH0\n") := by
  unfold runMain
  rw [runMainLines_dBase]
  decide

/-- A run that succeeds produced report lines. -/
theorem runMain_ok_lines {d : Daemon} {fuel : ℕ} {c : String}
    (h : runMain d fuel = (Except.ok (), c)) :
    ∃ L, runMainLines d fuel = Except.ok L := by
  unfold runMain at h
  cases hr : runMainLines d fuel with
  | error e =>
    rw [hr] at h
    simp only [Prod.mk.injEq] at h
    exact absurd h.1 (by simp)
  | ok L => exact ⟨L, rfl⟩

/-- Claim C6: the tracker captures the unconfirmed-pool snapshot before
mining, and exactly that snapshot fee is the value on the report fee line;
it mines one block, refetches the transaction block-scoped, and reports the
chain height read after mining; a transaction absent from the pool at the
snapshot step makes the pipeline abort. -/
theorem confirmation_tracker_spec (d : Daemon) (fuel : ℕ) :
    (∀ L, runMainLines d fuel = Except.ok L →
      ∃ me height ch chs,
        d.mempool = Except.ok me ∧
        d.confirmGenerate = Except.ok (ch :: chs) ∧
        d.blockchainInfo2 = Except.ok height ∧
        d.rawTx1 = Except.ok () ∧
        L.get? 7 = some (formatFix8 me.feeBase) ∧
        L.get? 8 = some (toString height) ∧
        L.get? 9 = some ch)
    ∧ (∀ e, d.mempool = Except.error e →
        ∀ L, runMainLines d fuel ≠ Except.ok L) := by
  constructor
  · intro L hL
    obtain ⟨bi, mC, w1, tC, w2, minerAddr, n, mb, traderAddr, tb, mbs, txid,
      me, ch, chs, height, mfb, tfb, vouts, h0, h1, h2, h3, h4, h5, h6, h7,
      h8, h9, h10, h11, h12, h13, h14, h15, h16, h17, h18, h19, h20, h21,
      hLv⟩ := runMainLines_ok_elim hL
    exact ⟨me, height, ch, chs, h13, h14, h16, h17, by rw [hLv]; rfl,
      by rw [hLv]; rfl, by rw [hLv]; rfl⟩
  · intro e he L hL
    obtain ⟨bi, mC, w1, tC, w2, minerAddr, n, mb, traderAddr, tb, mbs, txid,
      me, ch, chs, height, mfb, tfb, vouts, h0, h1, h2, h3, h4, h5, h6, h7,
      h8, h9, h10, h11, h12, h13, h14, h15, h16, h17, h18, h19, h20, h21,
      hLv⟩ := runMainLines_ok_elim hL
    rw [he] at h13
    exact absurd h13 (by simp)

/-- Witness for C6 at the base concrete daemon. -/
theorem confirmation_tracker_spec_witness :
    ∃ me height ch chs,
      dBase.mempool = Except.ok me ∧
      dBase.confirmGenerate = Except.ok (ch :: chs) ∧
      dBase.blockchainInfo2 = Except.ok height ∧
      dBase.rawTx1 = Except.ok () ∧
      (["TXID0", "MINERADDR", "50.0", "TRADEROUT", "20.0", "CHANGEOUT",
        "29.99999000", "0.00001000", "102", "BLOCKHASH0"] : List String).get? 7 =
        some (formatFix8 me.feeBase) ∧
      (["TXID0", "MINERADDR", "50.0", "TRADEROUT", "20.0", "CHANGEOUT",
        "29.99999000", "0.00001000", "102", "BLOCKHASH0"] : List String).get? 8 =
        some (toString height) ∧
      (["TXID0", "MINERADDR", "50.0", "TRADEROUT", "20.0", "CHANGEOUT",
        "29.99999000", "0.00001000", "102", "BLOCKHASH0"] : List String).get? 9 =
        some ch :=
  (confirmation_tracker_spec dBase 1).1 _ runMainLines_dBase

/-- Claim C10: whenever the report stage is reached, the sender-amount line
is the constant string 50.0 and the recipient-amount line the constant
string 20.0, independent of the decoded values; only the change-amount line
is derived from the decoded outputs. -/
theorem report_constant_amounts (d : Daemon) (fuel : ℕ) (L : List String)
    (hL : runMainLines d fuel = Except.ok L) :
    L.get? 2 = some "50.0" ∧ L.get? 4 = some "20.0" ∧
    ∃ traderAddr minerAddr vouts,
      d.traderNewAddress = Except.ok traderAddr ∧
      d.minerNewAddress = Except.ok minerAddr ∧
      d.decodedVout = Except.ok (some vouts) ∧
      L.get? 6 = some (classifyOutputs traderAddr minerAddr vouts).2.2 := by
  obtain ⟨bi, mC, w1, tC, w2, minerAddr, n, mb, traderAddr, tb, mbs, txid,
    me, ch, chs, height, mfb, tfb, vouts, h0, h1, h2, h3, h4, h5, h6, h7,
    h8, h9, h10, h11, h12, h13, h14, h15, h16, h17, h18, h19, h20, h21,
    hLv⟩ := runMainLines_ok_elim hL
  exact ⟨by rw [hLv]; rfl, by rw [hLv]; rfl, traderAddr, minerAddr, vouts,
    h8, h6, h21, by rw [hLv]; rfl⟩

/-- Witness for C10 at the base concrete daemon. -/
theorem report_constant_amounts_witness :
    (["TXID0", "MINERADDR", "50.0", "TRADEROUT", "20.0", "CHANGEOUT",
      "29.99999000", "0.00001000", "102", "BLOCKHASH0"] : List String).get? 2 =
      some "50.0" ∧
    (["TXID0", "MINERADDR", "50.0", "TRADEROUT", "20.0", "CHANGEOUT",
      "29.99999000", "0.00001000", "102", "BLOCKHASH0"] : List String).get? 4 =
      some "20.0" ∧
    ∃ traderAddr minerAddr vouts,
      dBase.traderNewAddress = Except.ok traderAddr ∧
      dBase.minerNewAddress = Except.ok minerAddr ∧
      dBase.decodedVout = Except.ok (some vouts) ∧
      (["TXID0", "MINERADDR", "50.0", "TRADEROUT", "20.0", "CHANGEOUT",
        "29.99999000", "0.00001000", "102", "BLOCKHASH0"] : List String).get? 6 =
        some (classifyOutputs traderAddr minerAddr vouts).2.2 :=
  report_constant_amounts dBase 1 _ runMainLines_dBase

/-- Witness for C3: a balance schedule that turns positive at block 101. -/
theorem maturation_loop_spec_witness :
    ∃ n b, 0 < b ∧ b = (if 101 ≤ n then (50 : ℚ) else 0) ∧ 1 ≤ n ∧
      ∀ fuel, n ≤ fuel →
        matureLoopE (fun _ => Except.ok ["H1"])
          (fun k => Except.ok (if 101 ≤ k then (50 : ℚ) else 0)) fuel 0 =
        Except.ok (n, b) :=
  (maturation_loop_spec _ _ (fun _ => ["H1"])
    (fun k => if 101 ≤ k then (50 : ℚ) else 0) (fun _ => rfl) (fun _ => rfl)).1
    ⟨101, by norm_num, by norm_num⟩

/-- Witness for C8 at the base concrete daemon. -/
theorem write_report_spec_witness :
    "TXID0\nMINERADDR\n50.0\nTRADEROUT\n20.0\nCHANGEOUT\n29.99999000\n0.00001000\n102\nBLOCKHASH0\n" =
      reportContent ["TXID0", "MINERADDR", "50.0", "TRADEROUT", "20.0",
        "CHANGEOUT", "29.99999000", "0.00001000", "102", "BLOCKHASH0"] ∧
    dBase.fileCreateOk = true ∧ ∀ i, i < 10 → dBase.writeOk i = true :=
  (write_report_spec dBase 1 _ runMainLines_dBase).2.2.1 _ runMain_dBase

/-! ## The daemon with a transport error at the listwallets call site -/

theorem clw9_miner_eval :
    create_or_load_wallet ws9 "Miner" =
      Except.ok (true, ⟨["Miner"], ["Miner"], true, [], []⟩) := by decide

theorem clw9_trader_eval :
    create_or_load_wallet ⟨["Miner"], ["Miner"], true, [], []⟩ "Trader" =
      Except.ok (true, ⟨["Trader", "Miner"], ["Trader", "Miner"], true, [], []⟩) := by
  decide

theorem runMainLines_d9c :
    runMainLines d9c 1 = Except.ok
      ["TXID0", "MINERADDR", "50.0", "TRADEROUT", "20.0", "CHANGEOUT",
       "29.99999000", "0.00001000", "102", "BLOCKHASH0"] := by
  simp [runMainLines, d9c, dBase, clw9_miner_eval, clw9_trader_eval, loop_eval,
    classify_base_eval, formatFix8_fee_inv, toString_102, ebind_ok, epure_eq_ok]

theorem runMain_d9c :
    runMain d9c 1 = (Except.ok (),
      "TXID0\nMINERADDR\n50.0\nTRADEROUT\n20.0\nCHANGEOUT\n29.99999000\n0.00001000\n102\nBLOCKHASH0\n") := by
  unfold runMain
  rw [runMainLines_d9c]
  decide

/-- Counterexample to C9: the listwallets call site suffers a transport
error, yet the run neither aborts there nor anywhere else: it completes
successfully, because is_wallet_loaded swallows the error. -/
theorem rpc_error_swallowed_counterexample :
    listwallets ws9 = Except.error "connection refused" ∧
    (runMain d9c 1).1 = Except.ok () :=
  ⟨by decide, by rw [runMain_d9c]⟩

/-- Claim C9 as amended: every RPC error at the call sites of main itself is
fatal with no retry; the exceptions are the listwallets call inside
is_wallet_loaded, whose failure is swallowed and reported as wallet not
loaded, and the fallback loadwallet call, whose failure is only a warning. -/
theorem rpc_errors_fatal_amended (d : Daemon) (fuel : ℕ) :
    (∀ c, runMain d fuel = (Except.ok (), c) →
      d.connectNode = Except.ok () ∧
      (∃ bi, d.blockchainInfo0 = Except.ok bi) ∧
      (∃ r, create_or_load_wallet d.wallets "Miner" = Except.ok r) ∧
      d.connectMiner = Except.ok () ∧
      d.connectTrader = Except.ok () ∧
      (∃ a, d.minerNewAddress = Except.ok a) ∧
      (∃ r, matureLoopE d.loopGenerate d.loopBalance fuel 0 = Except.ok r) ∧
      (∃ a, d.traderNewAddress = Except.ok a) ∧
      (∃ x, d.traderBalance1 = Except.ok x) ∧
      (∃ x, d.minerBalanceBeforeSend = Except.ok x) ∧
      (∃ t, d.sendResult = Except.ok t) ∧
      (∃ m, d.mempool = Except.ok m) ∧
      (∃ hs, d.confirmGenerate = Except.ok hs) ∧
      (∃ hgt, d.blockchainInfo2 = Except.ok hgt) ∧
      d.rawTx1 = Except.ok () ∧
      (∃ x, d.minerFinalBalance = Except.ok x) ∧
      (∃ x, d.traderFinalBalance = Except.ok x) ∧
      d.rawTx2 = Except.ok () ∧
      (∃ v, d.decodedVout = Except.ok (some v)))
    ∧ (∀ (s : WalletSvc) (name e : String), listwallets s = Except.error e →
        is_wallet_loaded s name = false)
    ∧ (∀ (s : WalletSvc) (name msg e : String),
        is_wallet_loaded s name = false →
        createwallet s name = Except.error msg →
        (strContains msg "Database already exists"
          || strContains msg "already exists") = true →
        loadwallet s name = Except.error e →
        create_or_load_wallet s name = Except.ok (false, s)) := by
  refine ⟨?_, ?_, fun s name msg e hl hc hcont hload =>
    cl_of_exists_load_err hl hc hcont hload⟩
  · intro c h
    obtain ⟨L, hL⟩ := runMain_ok_lines h
    obtain ⟨bi, mC, w1, tC, w2, minerAddr, n, mb, traderAddr, tb, mbs, txid,
      me, ch, chs, height, mfb, tfb, vouts, h0, h1, h2, h3, h4, h5, h6, h7,
      h8, h9, h10, h11, h12, h13, h14, h15, h16, h17, h18, h19, h20, h21,
      hLv⟩ := runMainLines_ok_elim hL
    exact ⟨h0, ⟨bi, h1⟩, ⟨(mC, w1), h2⟩, h4, h5, ⟨minerAddr, h6⟩, ⟨(n, mb), h7⟩,
      ⟨traderAddr, h8⟩, ⟨tb, h9⟩, ⟨mbs, h10⟩, ⟨txid, h11⟩, ⟨me, h13⟩,
      ⟨ch :: chs, h14⟩, ⟨height, h16⟩, h17, ⟨mfb, h18⟩, ⟨tfb, h19⟩, h20,
      ⟨vouts, h21⟩⟩
  · intro s name e he
    simp [is_wallet_loaded, he]

/-- Witness for the amended C9 at concrete inputs. -/
theorem rpc_errors_fatal_amended_witness :
    dBase.connectNode = Except.ok () ∧
    is_wallet_loaded ⟨[], [], true, [], []⟩ "Miner" = false :=
  ⟨((rpc_errors_fatal_amended dBase 1).1 _ runMain_dBase).1,
    (rpc_errors_fatal_amended dBase 1).2.1 ⟨[], [], true, [], []⟩ "Miner"
      "connection refused" (by decide)⟩

/-! ## Classifier claims -/

/-- Counterexample to C1 as stated: with two outputs both equal to the
transfer amount, the first output is not labelled recipient (the last match
wins) and neither output is labelled change. -/
theorem classifier_order_counterexample :
    classifyOutputs "T" "M" [⟨some 20, some "A"⟩, ⟨some 20, some "B"⟩] =
      ("B", "M", "0.0") ∧ "B" ≠ "A" ∧ "M" ≠ "A" ∧ "M" ≠ "B" := by
  refine ⟨?_, by decide, by decide, by decide⟩
  norm_num [classifyOutputs, classifyStep]

/-- Claim C1 as amended: provided the second output is positive and at
least the tolerance away from the transfer amount, the classifier labels
the in-tolerance output as recipient and the other as change, regardless of
the order of the two outputs. -/
theorem classifier_two_outputs (a1 a2 : ℚ) (addr1 addr2 tA mA : String)
    (h1 : |a1 - 20| < 1/10000) (h2 : a2 > 0) (h3 : |a2 - 20| ≥ 1/10000) :
    classifyOutputs tA mA [⟨some a1, some addr1⟩, ⟨some a2, some addr2⟩] =
      (addr1, addr2, formatFix8 a2) ∧
    classifyOutputs tA mA [⟨some a2, some addr2⟩, ⟨some a1, some addr1⟩] =
      (addr1, addr2, formatFix8 a2) := by
  have hn1 : ¬ |a2 - 20| < 1/10000 := not_lt.mpr h3
  have hq : ((10000 : ℚ))⁻¹ = 1/10000 := by norm_num
  have e1 : |a1 - 20| < 10000⁻¹ := by rw [hq]; exact h1
  have e3 : (10000 : ℚ)⁻¹ ≤ |a2 - 20| := by rw [hq]; exact h3
  have e2 : ¬ |a2 - 20| < 10000⁻¹ := by rw [hq]; exact hn1
  constructor <;> simp [classifyOutputs, classifyStep, e1, e2, e3, h2]

/-- Witness for the amended C1 at concrete amounts twenty and five. -/
theorem classifier_two_outputs_witness :
    classifyOutputs "T" "M" [⟨some 20, some "A"⟩, ⟨some 5, some "B"⟩] =
      ("A", "B", "5.00000000") ∧
    classifyOutputs "T" "M" [⟨some 5, some "B"⟩, ⟨some 20, some "A"⟩] =
      ("A", "B", "5.00000000") := by
  have h := classifier_two_outputs 20 5 "A" "B" "T" "M" (by norm_num)
    (by norm_num) (by rw [abs_sub_comm, abs_of_nonneg (by norm_num : (0:ℚ) ≤ 20 - 5)]; norm_num)
  rwa [formatFix8_five] at h

/-- The classification loop never changes the recipient field when no
output is within tolerance of the transfer amount. -/
theorem foldl_classify_fst (vouts : List Vout)
    (hno : ∀ v ∈ vouts, ¬ |v.value.getD 0 - 20| < 1/10000) :
    ∀ acc, (List.foldl classifyStep acc vouts).1 = acc.1 := by
  induction vouts with
  | nil => intro acc; rfl
  | cons v vs ih =>
    intro acc
    rw [List.foldl_cons]
    rw [ih (fun w hw => hno w (List.mem_cons_of_mem v hw))]
    unfold classifyStep
    cases v.address with
    | none => rfl
    | some a =>
      show (if |v.value.getD 0 - 20| < 1/10000 then (a, acc.2.1, acc.2.2)
            else if v.value.getD 0 > 0 ∧ |v.value.getD 0 - 20| ≥ 1/10000
            then (acc.1, a, formatFix8 (v.value.getD 0)) else acc).1 = acc.1
      rw [if_neg (hno v (List.mem_cons_self v vs))]
      by_cases hp : v.value.getD 0 > 0 ∧ |v.value.getD 0 - 20| ≥ 1/10000
      · rw [if_pos hp]
      · rw [if_neg hp]

theorem abs_five_sub_twenty : |(5 : ℚ) - 20| = 15 := by
  rw [abs_sub_comm, abs_of_nonneg (by norm_num : (0:ℚ) ≤ 20 - 5)]
  norm_num

theorem classify_d2c_eval :
    classifyOutputs "TRADERADDR" "MINERADDR" [⟨some 5, some "X"⟩] =
      ("TRADERADDR", "X", "5.00000000") := by
  norm_num [classifyOutputs, classifyStep, formatFix8_five, abs_five_sub_twenty]

theorem runMainLines_d2c :
    runMainLines d2c 1 = Except.ok
      ["TXID0", "MINERADDR", "50.0", "TRADERADDR", "20.0", "X",
       "5.00000000", "0.00001000", "102", "BLOCKHASH0"] := by
  simp [runMainLines, d2c, dBase, clw_miner_eval, clw_trader_eval, loop_eval,
    classify_d2c_eval, formatFix8_fee_inv, toString_102, ebind_ok, epure_eq_ok]

theorem runMain_d2c :
    runMain d2c 1 = (Except.ok (),
      "TXID0\nMINERADDR\n50.0\nTRADERADDR\n20.0\nX\n5.00000000\n0.00001000\n102\nBLOCKHASH0\n") := by
  unfold runMain
  rw [runMainLines_d2c]
  decide

/-- Counterexample to C2 as stated: the decoded output list has no output
within tolerance of the transfer amount, yet the run does not abort: it
completes successfully and writes the report with the default recipient. -/
theorem no_recipient_output_counterexample :
    (∀ v ∈ [(⟨some 5, some "X"⟩ : Vout)], ¬ |v.value.getD 0 - 20| < 1/10000) ∧
    d2c.decodedVout = Except.ok (some [⟨some 5, some "X"⟩]) ∧
    runMain d2c 1 = (Except.ok (),
      "TXID0\nMINERADDR\n50.0\nTRADERADDR\n20.0\nX\n5.00000000\n0.00001000\n102\nBLOCKHASH0\n") := by
  refine ⟨?_, rfl, runMain_d2c⟩
  intro v hv
  simp only [List.mem_singleton] at hv
  subst hv
  norm_num [abs_five_sub_twenty]

/-- Claim C2 as amended: when no decoded output is within tolerance of the
transfer amount, the run does not abort; the classifier silently keeps the
default, so the recipient-address line of the report is the trader address
generated by the run. -/
theorem no_recipient_output_defaults (d : Daemon) (fuel : ℕ) (L : List String)
    (hL : runMainLines d fuel = Except.ok L)
    (vouts : List Vout) (hv : d.decodedVout = Except.ok (some vouts))
    (hno : ∀ v ∈ vouts, ¬ |v.value.getD 0 - 20| < 1/10000) :
    ∃ traderAddr, d.traderNewAddress = Except.ok traderAddr ∧
      L.get? 3 = some traderAddr := by
  obtain ⟨bi, mC, w1, tC, w2, minerAddr, n, mb, traderAddr, tb, mbs, txid,
    me, ch, chs, height, mfb, tfb, vouts', h0, h1, h2, h3, h4, h5, h6, h7,
    h8, h9, h10, h11, h12, h13, h14, h15, h16, h17, h18, h19, h20, h21,
    hLv⟩ := runMainLines_ok_elim hL
  rw [h21] at hv
  have hvv : vouts' = vouts := by
    simpa using hv
  subst hvv
  have hcl : (classifyOutputs traderAddr minerAddr vouts').1 = traderAddr :=
    foldl_classify_fst vouts' hno (traderAddr, minerAddr, "0.0")
  refine ⟨traderAddr, h8, ?_⟩
  rw [hLv]
  simp [hcl]

/-- Witness for the amended C2 at the concrete no-match daemon. -/
theorem no_recipient_output_defaults_witness :
    ∃ traderAddr, d2c.traderNewAddress = Except.ok traderAddr ∧
      (["TXID0", "MINERADDR", "50.0", "TRADERADDR", "20.0", "X", "5.00000000",
        "0.00001000", "102", "BLOCKHASH0"] : List String).get? 3 =
        some traderAddr :=
  no_recipient_output_defaults d2c 1 _ runMainLines_d2c [⟨some 5, some "X"⟩] rfl
    (by
      intro v hv
      simp only [List.mem_singleton] at hv
      subst hv
      norm_num [abs_five_sub_twenty])
